import Mathlib

/-!
Shallow embedding of the resilience layer of the `trp_micro_task` API gateway:
the circuit breaker (`src/api_gateway/circuit_breaker.py`), the sliding-window
rate limiter (`src/api_gateway/rate_limiter.py`) and the dispatcher pieces of
`src/api_gateway/app.py` (the `rate_limit` decorator's wrapped handler, the
backend-call classifiers `call_users_service` / `call_orders_service`, and the
composite `get_user_details` fan-out).

Timestamps are modelled as rationals (seconds); `datetime.now()` becomes an
explicit `now` argument at each point the Python code reads the clock.  The
wrapped operation of a guarded call is modelled by its outcome (a returned
value or a raised exception); each embedded call reports how many times the
operation was invoked, so "the operation is never invoked" is a provable
statement.
-/

namespace Gateway

/-- The three breaker states: the Python strings `'closed'`, `'open'`,
`'half_open'`. -/
inductive BState where
  | closed
  | opened
  | half_open
  deriving DecidableEq, Repr

/-- Constructor-time configuration of `CircuitBreaker.__init__`
(`timeout` is never read by the breaker logic itself and is omitted). -/
structure BreakerConfig where
  error_threshold : ℚ
  reset_timeout : ℚ
  min_requests : ℕ
  success_threshold : ℕ
  deriving DecidableEq, Repr

/-- Mutable state of a `CircuitBreaker` instance. -/
structure BreakerState where
  failure_count : ℕ
  success_count : ℕ
  half_open_success : ℕ
  last_failure_time : Option ℚ
  state : BState
  total_requests : ℕ
  total_failures : ℕ
  last_state_change : ℚ
  deriving DecidableEq, Repr

/-- Embedding of `CircuitBreaker.__init__`: counters zero, no failure yet, state `closed`. -/
def BreakerState.init (now : ℚ) : BreakerState :=
  { failure_count := 0
    success_count := 0
    half_open_success := 0
    last_failure_time := none
    state := BState.closed
    total_requests := 0
    total_failures := 0
    last_state_change := now }

/-- The modelled outcome of the wrapped function `func`: it either returns a
value or raises. -/
inductive Outcome (α : Type) where
  | success (v : α)
  | failure
  deriving DecidableEq, Repr

/-- What `CircuitBreaker.call` does for the caller: return the function's
value, re-raise the function's exception, raise `Circuit breaker is open`,
or (when `state == 'open'` with `last_failure_time is None`) die on the
`datetime.now() - None` type error. -/
inductive CallResult (α : Type) where
  | ok (v : α)
  | raised
  | circuitOpen
  | typeError
  deriving DecidableEq, Repr

/-- Result of one embedded `CircuitBreaker.call`: the breaker state afterwards,
what the caller sees, and how many times `func` was invoked (0 or 1). -/
structure CallOutput (α : Type) where
  state : BreakerState
  result : CallResult α
  invocations : ℕ
  deriving DecidableEq, Repr

/-- Outcome of the first locked section of `CircuitBreaker.call`
(lines 55-75): either proceed to invoke `func`, block with the
circuit-open exception, or hit the `None` arithmetic type error. -/
inductive EntryResult where
  | proceed (s : BreakerState)
  | blocked (s : BreakerState)
  | errorNone (s : BreakerState)
  deriving DecidableEq, Repr

/-- First locked section of `CircuitBreaker.call`: increment
`total_requests`; if `state == 'open'`, either move to `half_open` when
`now - last_failure_time > reset_timeout` (strict, `timedelta` comparison
on line 60) or raise the circuit-open exception. -/
def callEntry (cfg : BreakerConfig) (s : BreakerState) (now : ℚ) : EntryResult :=
  let s1 : BreakerState := { s with total_requests := s.total_requests + 1 }
  match s1.state with
  | BState.opened =>
    match s1.last_failure_time with
    | some t =>
      if now - t > cfg.reset_timeout then
        EntryResult.proceed { s1 with
          state := BState.half_open
          half_open_success := 0
          last_state_change := now }
      else
        EntryResult.blocked s1
    | none => EntryResult.errorNone s1
  | _ => EntryResult.proceed s1

/-- Bookkeeping after `func` ran (the `try`/`except` of lines 78-143):
on success increment `success_count` and, in `half_open`, count the success
and close the circuit at `success_threshold`; on failure increment the
failure counters, stamp `last_failure_time`, and reopen (`half_open`) or
trip (`closed`, when the window is large enough and the error rate reaches
`error_threshold`). -/
def runOp {α : Type} (cfg : BreakerConfig) (s : BreakerState) (op : Outcome α)
    (now2 : ℚ) : CallOutput α :=
  match op with
  | Outcome.success v =>
    let s1 : BreakerState := { s with success_count := s.success_count + 1 }
    let s2 : BreakerState :=
      if s1.state = BState.half_open then
        let s1h : BreakerState := { s1 with half_open_success := s1.half_open_success + 1 }
        if s1h.half_open_success ≥ cfg.success_threshold then
          { s1h with
            state := BState.closed
            failure_count := 0
            success_count := 0
            last_state_change := now2 }
        else s1h
      else s1
    { state := s2, result := CallResult.ok v, invocations := 1 }
  | Outcome.failure =>
    let s1 : BreakerState := { s with
      failure_count := s.failure_count + 1
      total_failures := s.total_failures + 1
      last_failure_time := some now2 }
    let s2 : BreakerState :=
      match s1.state with
      | BState.half_open =>
        { s1 with state := BState.opened, last_state_change := now2 }
      | BState.closed =>
        let total : ℕ := s1.failure_count + s1.success_count
        if total ≥ cfg.min_requests then
          let error_rate : ℚ := (s1.failure_count : ℚ) / (total : ℚ)
          if error_rate ≥ cfg.error_threshold then
            { s1 with state := BState.opened, last_state_change := now2 }
          else s1
        else s1
      | BState.opened => s1
    { state := s2, result := CallResult.raised, invocations := 1 }

/-- Embedding of `CircuitBreaker.call`, whole: the entry section at clock reading `now`,
then — unless blocked — the wrapped operation and its bookkeeping at clock
reading `now2`. -/
def call {α : Type} (cfg : BreakerConfig) (s : BreakerState) (now : ℚ)
    (op : Outcome α) (now2 : ℚ) : CallOutput α :=
  match callEntry cfg s now with
  | EntryResult.proceed s1 => runOp cfg s1 op now2
  | EntryResult.blocked s1 =>
    { state := s1, result := CallResult.circuitOpen, invocations := 0 }
  | EntryResult.errorNone s1 =>
    { state := s1, result := CallResult.typeError, invocations := 0 }

/-- A sequence of `call`s: each attempt supplies the entry clock reading, the
operation outcome, and the completion clock reading.  Returns the final
breaker state, the list of per-call results, and the total number of times
the wrapped operation was invoked. -/
def callSeq {α : Type} (cfg : BreakerConfig) (s : BreakerState)
    (attempts : List (ℚ × Outcome α × ℚ)) :
    BreakerState × List (CallResult α) × ℕ :=
  match attempts with
  | [] => (s, [], 0)
  | (now, op, now2) :: rest =>
    let out := call cfg s now op now2
    let (sFin, results, invs) := callSeq cfg out.state rest
    (sFin, out.result :: results, out.invocations + invs)

/-- The dictionary returned by `CircuitBreaker.get_stats`. -/
structure BreakerStats where
  state : BState
  total_requests : ℕ
  total_failures : ℕ
  window_requests : ℕ
  window_failures : ℕ
  window_successes : ℕ
  error_rate : ℚ
  last_failure_time : Option ℚ
  last_state_change : ℚ
  deriving DecidableEq, Repr

/-- Embedding of `CircuitBreaker.get_stats`: a read-only snapshot; the error rate is
`failure_count / total` guarded by `total > 0`, else `0`. -/
def get_stats (s : BreakerState) : BreakerStats :=
  let total : ℕ := s.failure_count + s.success_count
  { state := s.state
    total_requests := s.total_requests
    total_failures := s.total_failures
    window_requests := total
    window_failures := s.failure_count
    window_successes := s.success_count
    error_rate := if total > 0 then (s.failure_count : ℚ) / (total : ℚ) else 0
    last_failure_time := s.last_failure_time
    last_state_change := s.last_state_change }

/-- Embedding of `CircuitBreaker.reset`: administrative reset to `closed`, zeroing the
window counters and `half_open_success`. -/
def reset (s : BreakerState) (now : ℚ) : BreakerState :=
  { s with
    state := BState.closed
    failure_count := 0
    success_count := 0
    half_open_success := 0
    last_state_change := now }

/-- The breaker operations a caller can issue (`call`, `get_stats`, `reset`);
used to state invariants over every operation. -/
inductive BreakerOp (α : Type) where
  | call (now : ℚ) (op : Outcome α) (now2 : ℚ)
  | get_stats
  | reset (now : ℚ)

/-- The breaker state after one operation: `call` follows the embedded
`call`; `get_stats` only reads under the lock; `reset` is the
administrative reset. -/
def applyOp {α : Type} (cfg : BreakerConfig) (s : BreakerState) :
    BreakerOp α → BreakerState
  | BreakerOp.call now op now2 => (call cfg s now op now2).state
  | BreakerOp.get_stats => s
  | BreakerOp.reset now => reset s now

/-! ## Rate limiter (`src/api_gateway/rate_limiter.py`) -/

/-- Embedding of the `RateLimiter.__init__` configuration. -/
structure RLConfig where
  max_requests : ℕ
  window_seconds : ℚ
  deriving DecidableEq, Repr

/-- The limiter's mutable state: `self.requests`, a `defaultdict(list)` from
identifier to the chronologically ordered timestamps, modelled as a total map
whose default value is the empty list. -/
structure RLState where
  requests : String → List ℚ

/-- Python `int()` on a rational number of seconds: truncation toward zero
(`int((reset_time - datetime.now()).total_seconds())`). -/
def pyInt (q : ℚ) : ℤ :=
  if 0 ≤ q then ⌊q⌋ else -⌊-q⌋

/-- What `RateLimiter.is_allowed` returns, plus the limiter state it leaves
behind. -/
structure AdmitResult where
  state : RLState
  allowed : Bool
  remaining : ℕ
  reset_time : ℚ

/-- Embedding of `RateLimiter.is_allowed`: prune the identifier's timestamps to those
strictly inside the window (`req_time > window_start`, line 42); if the
pruned count has reached `max_requests`, reject with `remaining = 0` and
`reset_time` = oldest surviving timestamp + window (line 47); otherwise
append `now` and accept.  The pruned (and possibly extended) list is stored
back in both branches (the in-place `user_requests[:] = ...`).
`List.headI` stands for Python's `user_requests[0]`; the reject branch only
reaches it with a nonempty list whenever `max_requests ≥ 1`. -/
def is_allowed (cfg : RLConfig) (st : RLState) (identifier : String) (now : ℚ) :
    AdmitResult :=
  let window_start : ℚ := now - cfg.window_seconds
  let user_requests : List ℚ :=
    (st.requests identifier).filter (fun req_time => req_time > window_start)
  if user_requests.length ≥ cfg.max_requests then
    { state := { requests := fun i =>
        if i = identifier then user_requests else st.requests i }
      allowed := false
      remaining := 0
      reset_time := user_requests.headI + cfg.window_seconds }
  else
    let appended : List ℚ := user_requests ++ [now]
    { state := { requests := fun i =>
        if i = identifier then appended else st.requests i }
      allowed := true
      remaining := cfg.max_requests - appended.length
      reset_time := now + cfg.window_seconds }

/-! ## Dispatcher pieces (`src/api_gateway/app.py`, `rate_limiter.py`) -/

/-- What the `rate_limit`-wrapped route returns: either the 429 rejection
body with its `retry_after`, or the handler's response with the rate-limit
header metadata attached. -/
inductive RouteResponse (α : Type) where
  | rateLimited (status : ℕ) (retry_after : ℤ)
  | handled (resp : α) (limit : ℕ) (remaining : ℕ) (reset_time : ℚ)
  deriving DecidableEq, Repr

/-- Result of one pass through the `rate_limit` decorator's `wrapped`: the
limiter state, the handler-side state (breaker state and anything else the
handler touches), the response, and how many times the handler `f` ran. -/
structure RouteOutput (σ α : Type) where
  limiter : RLState
  backend : σ
  response : RouteResponse α
  handlerCalls : ℕ

/-- The `wrapped` closure produced by the `rate_limit` decorator
(lines 110-149): run `is_allowed`; if denied, return the
`RATE_LIMIT_EXCEEDED` 429 body with
`retry_after = int(reset_time - now)` and never touch the handler;
otherwise run the handler (a state transformer over the backend/breaker
state `σ`) and attach the rate-limit metadata. -/
def rate_limit {σ α : Type} (cfg : RLConfig) (lst : RLState)
    (identifier : String) (now : ℚ) (handler : σ → σ × α) (bs : σ) :
    RouteOutput σ α :=
  let r := is_allowed cfg lst identifier now
  if r.allowed then
    let (bs2, resp) := handler bs
    { limiter := r.state
      backend := bs2
      response := RouteResponse.handled resp cfg.max_requests r.remaining r.reset_time
      handlerCalls := 1 }
  else
    { limiter := r.state
      backend := bs
      response := RouteResponse.rateLimited 429 (pyInt (r.reset_time - now))
      handlerCalls := 0 }

/-- An HTTP exchange with a backend as `requests.request` reports it: either
a response with a status code and JSON body, or a raised
`RequestException` (connection error / timeout). -/
inductive HttpAttempt (α : Type) where
  | response (status_code : ℕ) (body : α)
  | requestException
  deriving DecidableEq, Repr

/-- Embedding of `call_users_service` (app.py lines 39-67): a 404 response is returned
as a normal `(json, status)` value before `raise_for_status`; any other
4xx/5xx raises through `raise_for_status`; a `RequestException` re-raises.
The breaker therefore sees `Outcome.success` exactly for 404 and for
non-error statuses. -/
def call_users_service {α : Type} (att : HttpAttempt α) : Outcome (α × ℕ) :=
  match att with
  | HttpAttempt.requestException => Outcome.failure
  | HttpAttempt.response status body =>
    if status = 404 then Outcome.success (body, status)
    else if 400 ≤ status ∧ status < 600 then Outcome.failure
    else Outcome.success (body, status)

/-- Embedding of `call_orders_service` (app.py lines 69-96): identical classification. -/
def call_orders_service {α : Type} (att : HttpAttempt α) : Outcome (α × ℕ) :=
  match att with
  | HttpAttempt.requestException => Outcome.failure
  | HttpAttempt.response status body =>
    if status = 404 then Outcome.success (body, status)
    else if 400 ≤ status ∧ status < 600 then Outcome.failure
    else Outcome.success (body, status)

/-- What the composite `get_user_details` route returns: the users-service
404 body passed through, the merged 200 payload, or the 503
`SERVICE_UNAVAILABLE` envelope produced by the bare `except`. -/
inductive CompositeResult (α β : Type) where
  | notFound (body : α)
  | merged (user_data : α) (orders_data : β)
  | serviceUnavailable
  deriving DecidableEq, Repr

/-- Result of one composite call: both breakers' states afterwards, the
response, and how many times the orders backend operation was invoked. -/
structure CompositeOutput (α β : Type) where
  users : BreakerState
  orders : BreakerState
  response : CompositeResult α β
  ordersInvocations : ℕ

/-- Embedding of `get_user_details` (app.py lines 381-396): call the users service
through its breaker; a raised exception (breaker open or call failure)
falls into the bare `except` and yields 503; a 404 status returns the users
body immediately, never reaching the orders call; otherwise call the orders
service through its breaker, and any exception there again yields 503 with
no partial payload; on success merge the two bodies.  JSON `data`-field
extraction is modelled as the bodies themselves. -/
def get_user_details {α β : Type} (ucfg ocfg : BreakerConfig)
    (us os : BreakerState) (unow unow2 onow onow2 : ℚ)
    (userAtt : HttpAttempt α) (ordersAtt : HttpAttempt β) :
    CompositeOutput α β :=
  let uout := call ucfg us unow (call_users_service userAtt) unow2
  match uout.result with
  | CallResult.ok (body, status) =>
    if status = 404 then
      { users := uout.state, orders := os
        response := CompositeResult.notFound body
        ordersInvocations := 0 }
    else
      let oout := call ocfg os onow (call_orders_service ordersAtt) onow2
      match oout.result with
      | CallResult.ok (obody, _) =>
        { users := uout.state, orders := oout.state
          response := CompositeResult.merged body obody
          ordersInvocations := oout.invocations }
      | _ =>
        { users := uout.state, orders := oout.state
          response := CompositeResult.serviceUnavailable
          ordersInvocations := oout.invocations }
  | _ =>
    { users := uout.state, orders := os
      response := CompositeResult.serviceUnavailable
      ordersInvocations := 0 }

/-! ## Helper lemmas -/

/-- A call on an `opened` breaker whose reset window has not elapsed is
blocked: only `total_requests` moves, the result is the circuit-open
exception, and the wrapped operation never runs. -/
lemma call_blocked {α : Type} (cfg : BreakerConfig) (s : BreakerState)
    (now : ℚ) (op : Outcome α) (now2 : ℚ) (t : ℚ)
    (hs : s.state = BState.opened) (ht : s.last_failure_time = some t)
    (hlt : ¬ now - t > cfg.reset_timeout) :
    call cfg s now op now2 =
      { state := { s with total_requests := s.total_requests + 1 }
        result := CallResult.circuitOpen
        invocations := 0 } := by
  simp only [call, callEntry, hs, ht, hlt, if_false]

/-- Running `callSeq` over an appended list runs the two halves in order. -/
lemma callSeq_append {α : Type} (cfg : BreakerConfig) (s : BreakerState)
    (l1 l2 : List (ℚ × Outcome α × ℚ)) :
    (callSeq cfg s (l1 ++ l2)).1 = (callSeq cfg (callSeq cfg s l1).1 l2).1 := by
  induction l1 generalizing s with
  | nil => simp [callSeq]
  | cons a rest ih =>
    obtain ⟨now, op, now2⟩ := a
    simp only [List.cons_append, callSeq]
    exact ih _

end Gateway

namespace Gateway

/-! ## C1 -/

/-- C1: from `closed`, a failing call trips the breaker to `opened` exactly
when, with `failure_count` already incremented, the window total reaches
`min_requests` and the error rate `failure_count / total` reaches
`error_threshold`; otherwise the state stays `closed`. -/
theorem closed_failure_trips_iff (cfg : BreakerConfig) (s : BreakerState)
    (now now2 : ℚ) (h : s.state = BState.closed) :
    (call cfg s now (Outcome.failure : Outcome ℕ) now2).state.state =
      (if cfg.min_requests ≤ s.failure_count + 1 + s.success_count ∧
          cfg.error_threshold ≤
            ((s.failure_count + 1 : ℕ) : ℚ) / ((s.failure_count + 1 + s.success_count : ℕ) : ℚ)
        then BState.opened else BState.closed) := by
  obtain ⟨fc, sc, hos, lft, st, tr, tf, lsc⟩ := s
  simp only at h
  subst h
  by_cases h1 : cfg.min_requests ≤ fc + 1 + sc
  · by_cases h2 : cfg.error_threshold ≤ ((fc + 1 : ℕ) : ℚ) / ((fc + 1 + sc : ℕ) : ℚ)
    · push_cast at h2
      simp [call, callEntry, runOp, ge_iff_le, h1, h2]
    · push_cast at h2
      simp [call, callEntry, runOp, ge_iff_le, h1, h2]
  · simp [call, callEntry, runOp, ge_iff_le, h1]

/-- C1 witness: with `min_requests = 5`, `error_threshold = 1/2`, a breaker
that has seen 3 successes and 1 failure stays `closed` on its 2nd failure
(rate 2/5); after 3 successes and 2 failures, the 3rd failure (rate 3/6)
trips it to `opened`. -/
theorem closed_failure_trips_iff_witness :
    (call ⟨1/2, 10, 5, 2⟩ ⟨1, 3, 0, some 0, BState.closed, 4, 1, 0⟩ 1
        (Outcome.failure : Outcome ℕ) 1).state.state = BState.closed
    ∧ (call ⟨1/2, 10, 5, 2⟩ ⟨2, 3, 0, some 0, BState.closed, 5, 2, 0⟩ 2
        (Outcome.failure : Outcome ℕ) 2).state.state = BState.opened := by
  constructor
  · rw [closed_failure_trips_iff _ _ _ _ rfl]
    norm_num
  · rw [closed_failure_trips_iff _ _ _ _ rfl]
    norm_num

/-! ## C2 -/

/-- C2: while the breaker is `opened` and each attempt arrives strictly
before `reset_timeout` has elapsed since `last_failure_time`, every attempt
in the sequence fails with the circuit-open exception, the wrapped
operation is invoked zero times in total, and the state is untouched except
for the `total_requests` counter. -/
theorem open_blocks_every_call {α : Type} (cfg : BreakerConfig)
    (s : BreakerState) (t : ℚ) (attempts : List (ℚ × Outcome α × ℚ))
    (hs : s.state = BState.opened) (ht : s.last_failure_time = some t)
    (hall : ∀ a ∈ attempts, a.1 - t < cfg.reset_timeout) :
    callSeq cfg s attempts =
      ({ s with total_requests := s.total_requests + attempts.length },
       List.replicate attempts.length (CallResult.circuitOpen : CallResult α),
       0) := by
  induction attempts generalizing s with
  | nil =>
    simp [callSeq]
  | cons a rest ih =>
    obtain ⟨now, op, now2⟩ := a
    have hnow : now - t < cfg.reset_timeout := hall (now, op, now2) (List.mem_cons_self _ _)
    have hblock : ¬ now - t > cfg.reset_timeout := by
      exact fun hgt => absurd hnow (not_lt_of_gt hgt)
    have hrest : ∀ a ∈ rest, a.1 - t < cfg.reset_timeout :=
      fun a ha => hall a (List.mem_cons_of_mem _ ha)
    have hs' : ({ s with total_requests := s.total_requests + 1 } : BreakerState).state
        = BState.opened := hs
    have ht' : ({ s with total_requests := s.total_requests + 1 } : BreakerState).last_failure_time
        = some t := ht
    simp only [callSeq, call_blocked cfg s now op now2 t hs ht hblock,
      ih _ hs' ht' hrest, List.length_cons, List.replicate_succ]
    obtain ⟨fc, sc, hos, lft, st, tr, tf, lsc⟩ := s
    simp [BreakerState.mk.injEq, Prod.mk.injEq]
    omega

/-- C2 witness: an `opened` breaker with `reset_timeout = 10` and last
failure at time 0, attempted at times 1, 5 and 9: every attempt is blocked
with the circuit-open result, the operation never runs, and only
`total_requests` advances (6 to 9). -/
theorem open_blocks_every_call_witness :
    callSeq ⟨1/2, 10, 5, 2⟩ ⟨3, 3, 0, some 0, BState.opened, 6, 3, 0⟩
        [(1, (Outcome.failure : Outcome ℕ), 1), (5, Outcome.success 7, 5),
         (9, Outcome.failure, 9)] =
      (⟨3, 3, 0, some 0, BState.opened, 9, 3, 0⟩,
       [CallResult.circuitOpen, CallResult.circuitOpen, CallResult.circuitOpen], 0) := by
  have h := open_blocks_every_call ⟨1/2, 10, 5, 2⟩
    ⟨3, 3, 0, some 0, BState.opened, 6, 3, 0⟩ 0
    [(1, (Outcome.failure : Outcome ℕ), 1), (5, Outcome.success 7, 5),
     (9, Outcome.failure, 9)] rfl rfl
    (by
      intro a ha
      fin_cases ha <;> norm_num)
  simpa using h

/-! ## C3 -/

/-- C3 counterexample: at elapsed time exactly `reset_timeout` (last failure
at 0, `reset_timeout = 10`, call at time 10) the code's strict `>` check
still blocks the call: the breaker does not move to `half_open` and the
wrapped operation is not invoked, contrary to the claim's `≥`. -/
theorem open_at_exact_reset_timeout_blocks :
    (call ⟨1/2, 10, 5, 2⟩ ⟨3, 3, 0, some 0, BState.opened, 6, 3, 0⟩ 10
        (Outcome.success (0 : ℕ)) 11).state.state ≠ BState.half_open
    ∧ (call ⟨1/2, 10, 5, 2⟩ ⟨3, 3, 0, some 0, BState.opened, 6, 3, 0⟩ 10
        (Outcome.success (0 : ℕ)) 11).invocations ≠ 1 := by
  norm_num [call, callEntry]
  decide

/-- C3 (amended): for an `opened` breaker, whenever the elapsed time since
`last_failure_time` is strictly greater than `reset_timeout`, the entry
section transitions the breaker to `half_open` (resetting
`half_open_success` to 0 and stamping `last_state_change`) and the call
invokes the operation exactly once. -/
theorem open_after_reset_timeout_half_opens {α : Type} (cfg : BreakerConfig)
    (s : BreakerState) (now now2 t : ℚ) (op : Outcome α)
    (hs : s.state = BState.opened) (ht : s.last_failure_time = some t)
    (helapsed : now - t > cfg.reset_timeout) :
    callEntry cfg s now = EntryResult.proceed
      { s with
        total_requests := s.total_requests + 1
        state := BState.half_open
        half_open_success := 0
        last_state_change := now }
    ∧ (call cfg s now op now2).invocations = 1 := by
  constructor
  · simp [callEntry, hs, ht, helapsed]
  · cases op <;> simp [call, callEntry, runOp, hs, ht, helapsed]

/-- C3 witness: an `opened` breaker with last failure at 0 and
`reset_timeout = 10`, called at time 11: the entry section yields the
`half_open` state and the operation runs once. -/
theorem open_after_reset_timeout_half_opens_witness :
    callEntry ⟨1/2, 10, 5, 2⟩ ⟨3, 3, 0, some 0, BState.opened, 6, 3, 0⟩ 11 =
      EntryResult.proceed ⟨3, 3, 0, some 0, BState.half_open, 7, 3, 11⟩
    ∧ (call ⟨1/2, 10, 5, 2⟩ ⟨3, 3, 0, some 0, BState.opened, 6, 3, 0⟩ 11
        (Outcome.success (5 : ℕ)) 11).invocations = 1 := by
  have h := open_after_reset_timeout_half_opens ⟨1/2, 10, 5, 2⟩
    ⟨3, 3, 0, some 0, BState.opened, 6, 3, 0⟩ 11 11 0 (Outcome.success 5)
    rfl rfl (by norm_num)
  simpa using h

/-! ## C4 -/

/-- While in `half_open` and strictly below `success_threshold`, each
successful call just advances `success_count`, `half_open_success` and
`total_requests`. -/
lemma half_open_run_below {α : Type} (cfg : BreakerConfig) (s : BreakerState)
    (attempts : List (ℚ × Outcome α × ℚ))
    (hs : s.state = BState.half_open)
    (hall : ∀ a ∈ attempts, ∃ v, a.2.1 = Outcome.success v)
    (hlen : s.half_open_success + attempts.length < cfg.success_threshold) :
    (callSeq cfg s attempts).1 =
      { s with
        success_count := s.success_count + attempts.length
        half_open_success := s.half_open_success + attempts.length
        total_requests := s.total_requests + attempts.length } := by
  induction attempts generalizing s with
  | nil => simp [callSeq]
  | cons a rest ih =>
    obtain ⟨now, op, now2⟩ := a
    obtain ⟨v, hv⟩ := hall (now, op, now2) (List.mem_cons_self _ _)
    simp only at hv
    subst hv
    obtain ⟨fc, sc, hos, lft, st, tr, tf, lsc⟩ := s
    simp only at hs hlen
    subst hs
    have hcond : ¬ cfg.success_threshold ≤ hos + 1 := by
      simp only [List.length_cons] at hlen
      omega
    have hrest : ∀ a ∈ rest, ∃ v, a.2.1 = (Outcome.success v : Outcome α) :=
      fun b hb => hall b (List.mem_cons_of_mem _ hb)
    have hlen' : (⟨fc, sc + 1, hos + 1, lft, BState.half_open, tr + 1, tf, lsc⟩ :
        BreakerState).half_open_success + rest.length < cfg.success_threshold := by
      simp only [List.length_cons] at hlen
      simp only
      omega
    have hstep : (call cfg ⟨fc, sc, hos, lft, BState.half_open, tr, tf, lsc⟩ now
        (Outcome.success v) now2).state =
        ⟨fc, sc + 1, hos + 1, lft, BState.half_open, tr + 1, tf, lsc⟩ := by
      simp [call, callEntry, runOp, ge_iff_le, hcond]
    simp only [callSeq, hstep, ih _ rfl hrest hlen', List.length_cons]
    simp [BreakerState.mk.injEq]
    omega

/-- C4 counterexample: `success_threshold = 2`, breaker `half_open` with
`half_open_success = 0`; two successful calls close the circuit, but
`half_open_success` is left at 2, not reset to 0 as the claim states. -/
theorem half_open_close_keeps_half_open_counter :
    (callSeq ⟨1/2, 10, 5, 2⟩ ⟨3, 3, 0, some 0, BState.half_open, 9, 3, 0⟩
        [(1, Outcome.success (0 : ℕ), 1), (2, Outcome.success 0, 2)]).1.state
      = BState.closed
    ∧ (callSeq ⟨1/2, 10, 5, 2⟩ ⟨3, 3, 0, some 0, BState.half_open, 9, 3, 0⟩
        [(1, Outcome.success (0 : ℕ), 1), (2, Outcome.success 0, 2)]).1.half_open_success
      ≠ 0 := by
  norm_num [callSeq, call, callEntry, runOp]

/-- C4 (amended): from a freshly entered `half_open` state
(`half_open_success = 0`), `success_threshold` consecutive successful calls
transition the breaker to `closed` and reset `failure_count` and
`success_count` to 0, while `half_open_success` is left at
`success_threshold` (it is only zeroed on entering `half_open` or by the
administrative reset); a single failed call while `half_open` immediately
transitions the breaker back to `opened` and stamps `last_failure_time`. -/
theorem half_open_threshold_closes_failure_reopens {α : Type}
    (cfg : BreakerConfig) (s : BreakerState)
    (attempts : List (ℚ × Outcome α × ℚ)) (now now2 : ℚ)
    (hs : s.state = BState.half_open) (hhos : s.half_open_success = 0)
    (hk : 1 ≤ cfg.success_threshold)
    (hlen : attempts.length = cfg.success_threshold)
    (hall : ∀ a ∈ attempts, ∃ v, a.2.1 = Outcome.success v) :
    ((callSeq cfg s attempts).1.state = BState.closed
      ∧ (callSeq cfg s attempts).1.failure_count = 0
      ∧ (callSeq cfg s attempts).1.success_count = 0
      ∧ (callSeq cfg s attempts).1.half_open_success = cfg.success_threshold)
    ∧ ((call cfg s now (Outcome.failure : Outcome α) now2).state.state = BState.opened
      ∧ (call cfg s now (Outcome.failure : Outcome α) now2).state.last_failure_time
          = some now2) := by
  obtain ⟨fc, sc, hos, lft, st, tr, tf, lsc⟩ := s
  simp only at hs hhos
  subst hs
  subst hhos
  constructor
  · have hne : attempts ≠ [] := by
      intro h
      rw [h] at hlen
      simp only [List.length_nil] at hlen
      omega
    obtain ⟨l1, a, hdec⟩ : ∃ l1 a, attempts = l1 ++ [a] :=
      ⟨attempts.dropLast, attempts.getLast hne,
        (List.dropLast_append_getLast hne).symm⟩
    subst hdec
    obtain ⟨lnow, lop, lnow2⟩ := a
    obtain ⟨v, hv⟩ := hall (lnow, lop, lnow2) (by simp)
    simp only at hv
    subst hv
    have hlen1 : l1.length + 1 = cfg.success_threshold := by
      simpa using hlen
    have hmid := half_open_run_below cfg
      ⟨fc, sc, 0, lft, BState.half_open, tr, tf, lsc⟩ l1 rfl
      (fun b hb => hall b (by simp [hb]))
      (by simp only; omega)
    have hcond : cfg.success_threshold ≤ l1.length + 1 := by omega
    rw [callSeq_append]
    rw [hmid]
    simp only [callSeq, call, callEntry, runOp]
    norm_num [ge_iff_le, hcond]
    omega
  · simp [call, callEntry, runOp]

/-- C4 witness: `success_threshold = 2`, `half_open` breaker with 3 window
failures and 3 window successes: two successes close it with both window
counters zeroed and `half_open_success = 2`; from the same state, one
failure at time 4 reopens it with `last_failure_time = 4`. -/
theorem half_open_threshold_closes_failure_reopens_witness :
    ((callSeq ⟨1/2, 10, 5, 2⟩ ⟨3, 3, 0, some 0, BState.half_open, 9, 3, 0⟩
        [(1, Outcome.success (0 : ℕ), 1), (2, Outcome.success 0, 2)]).1.state
        = BState.closed
      ∧ (callSeq ⟨1/2, 10, 5, 2⟩ ⟨3, 3, 0, some 0, BState.half_open, 9, 3, 0⟩
        [(1, Outcome.success (0 : ℕ), 1), (2, Outcome.success 0, 2)]).1.failure_count = 0
      ∧ (callSeq ⟨1/2, 10, 5, 2⟩ ⟨3, 3, 0, some 0, BState.half_open, 9, 3, 0⟩
        [(1, Outcome.success (0 : ℕ), 1), (2, Outcome.success 0, 2)]).1.success_count = 0
      ∧ (callSeq ⟨1/2, 10, 5, 2⟩ ⟨3, 3, 0, some 0, BState.half_open, 9, 3, 0⟩
        [(1, Outcome.success (0 : ℕ), 1), (2, Outcome.success 0, 2)]).1.half_open_success
        = 2)
    ∧ ((call ⟨1/2, 10, 5, 2⟩ ⟨3, 3, 0, some 0, BState.half_open, 9, 3, 0⟩ 4
        (Outcome.failure : Outcome ℕ) 4).state.state = BState.opened
      ∧ (call ⟨1/2, 10, 5, 2⟩ ⟨3, 3, 0, some 0, BState.half_open, 9, 3, 0⟩ 4
        (Outcome.failure : Outcome ℕ) 4).state.last_failure_time = some 4) := by
  have h := half_open_threshold_closes_failure_reopens ⟨1/2, 10, 5, 2⟩
    ⟨3, 3, 0, some 0, BState.half_open, 9, 3, 0⟩
    [(1, Outcome.success (0 : ℕ), 1), (2, Outcome.success 0, 2)] 4 4
    rfl rfl (by norm_num) rfl
    (by
      intro a ha
      fin_cases ha <;> exact ⟨0, rfl⟩)
  simpa using h

/-! ## C9 -/

/-- C9: over every breaker operation (`call`, `get_stats`, `reset`), either
both window counters are at least their old values, or the operation has
moved the breaker to `closed` with both counters zeroed: the counters are
reset only on a `closed` transition and are never decremented
individually. -/
theorem counters_reset_only_on_closed (cfg : BreakerConfig) (s : BreakerState)
    (op : BreakerOp ℕ) :
    (s.failure_count ≤ (applyOp cfg s op).failure_count
      ∧ s.success_count ≤ (applyOp cfg s op).success_count)
    ∨ ((applyOp cfg s op).state = BState.closed
      ∧ (applyOp cfg s op).failure_count = 0
      ∧ (applyOp cfg s op).success_count = 0) := by
  obtain ⟨fc, sc, hos, lft, st, tr, tf, lsc⟩ := s
  rcases op with ⟨now, op, now2⟩ | _ | now
  · rcases op with v | _
    · -- success path
      cases st
      · left
        simp [applyOp, call, callEntry, runOp]
      · rcases lft with _ | t
        · left
          simp [applyOp, call, callEntry, runOp]
        · by_cases ht : now - t > cfg.reset_timeout
          · by_cases hk : cfg.success_threshold ≤ 1
            · right
              simp [applyOp, call, callEntry, runOp, ht, hk]
            · left
              simp [applyOp, call, callEntry, runOp, ht, hk]
          · left
            simp [applyOp, call, callEntry, runOp, ht]
      · by_cases hk : cfg.success_threshold ≤ hos + 1
        · right
          simp [applyOp, call, callEntry, runOp, hk]
        · left
          simp [applyOp, call, callEntry, runOp, hk]
    · -- failure path: the window counters only grow
      left
      cases st
      · simp only [applyOp, call, callEntry, runOp]
        split_ifs <;> simp
      · rcases lft with _ | t
        · simp [applyOp, call, callEntry, runOp]
        · by_cases ht : now - t > cfg.reset_timeout
          · simp [applyOp, call, callEntry, runOp, ht]
          · simp [applyOp, call, callEntry, runOp, ht]
      · simp [applyOp, call, callEntry, runOp]
  · left
    simp [applyOp]
  · right
    simp [applyOp, reset]

/-! ## C10 -/

/-- C10: `get_stats` is total on every breaker state: the reported window
total is `failure_count + success_count`, the error rate is `0` when that
total is zero (the division is guarded), and is `failure_count / total`
otherwise. -/
theorem get_stats_error_rate_guarded (s : BreakerState) :
    (get_stats s).window_requests = s.failure_count + s.success_count
    ∧ (s.failure_count + s.success_count = 0 → (get_stats s).error_rate = 0)
    ∧ (0 < s.failure_count + s.success_count →
        (get_stats s).error_rate =
          (s.failure_count : ℚ) / ((s.failure_count + s.success_count : ℕ) : ℚ)) := by
  refine ⟨rfl, ?_, ?_⟩
  · intro h
    simp [get_stats, h]
  · intro h
    simp [get_stats, h]

/-- C10 witness: a fresh breaker (no window samples) reports
`error_rate = 0`; one with 3 failures and 3 successes reports `1/2`. -/
theorem get_stats_error_rate_guarded_witness :
    (get_stats (BreakerState.init 0)).error_rate = 0
    ∧ (get_stats ⟨3, 3, 0, some 0, BState.closed, 6, 3, 0⟩).error_rate = 1/2 := by
  constructor
  · exact (get_stats_error_rate_guarded (BreakerState.init 0)).2.1 rfl
  · have h := (get_stats_error_rate_guarded
      ⟨3, 3, 0, some 0, BState.closed, 6, 3, 0⟩).2.2 (by norm_num)
    rw [h]
    norm_num

/-! ## C5 -/

/-- C5: one `is_allowed` step, for every identifier and clock reading: with
`pruned` the stored timestamps strictly newer than `now - window_seconds`,
the call is rejected iff `pruned` has reached `max_requests`; a rejection
returns `remaining = 0`, `reset_time` = earliest surviving timestamp +
window, and stores `pruned`; an acceptance appends `now`, returns
`remaining = max_requests - (count after append)` and
`reset_time = now + window`. -/
theorem is_allowed_spec (cfg : RLConfig) (st : RLState) (identifier : String)
    (now : ℚ) :
    ((is_allowed cfg st identifier now).allowed = false ↔
      cfg.max_requests ≤ ((st.requests identifier).filter
        (fun t => t > now - cfg.window_seconds)).length)
    ∧ (cfg.max_requests ≤ ((st.requests identifier).filter
        (fun t => t > now - cfg.window_seconds)).length →
      (is_allowed cfg st identifier now).remaining = 0
      ∧ (∀ t0, ((st.requests identifier).filter
            (fun t => t > now - cfg.window_seconds)).head? = some t0 →
          (is_allowed cfg st identifier now).reset_time = t0 + cfg.window_seconds)
      ∧ (is_allowed cfg st identifier now).state.requests identifier =
          (st.requests identifier).filter (fun t => t > now - cfg.window_seconds))
    ∧ (((st.requests identifier).filter
        (fun t => t > now - cfg.window_seconds)).length < cfg.max_requests →
      (is_allowed cfg st identifier now).remaining =
        cfg.max_requests - (((st.requests identifier).filter
          (fun t => t > now - cfg.window_seconds)).length + 1)
      ∧ (is_allowed cfg st identifier now).reset_time = now + cfg.window_seconds
      ∧ (is_allowed cfg st identifier now).state.requests identifier =
          (st.requests identifier).filter (fun t => t > now - cfg.window_seconds)
            ++ [now]) := by
  by_cases hge : cfg.max_requests ≤ ((st.requests identifier).filter
      (fun t => t > now - cfg.window_seconds)).length
  · refine ⟨by simp [is_allowed, ge_iff_le, hge], fun _ => ⟨?_, ?_, ?_⟩, fun hlt => ?_⟩
    · simp [is_allowed, ge_iff_le, hge]
    · intro t0 ht0
      have hheadI : ((st.requests identifier).filter
          (fun t => t > now - cfg.window_seconds)).headI = t0 := by
        cases hl : (st.requests identifier).filter
            (fun t => t > now - cfg.window_seconds) with
        | nil => rw [hl] at ht0; simp at ht0
        | cons x xs => rw [hl] at ht0; simp at ht0; simp [hl, List.headI, ht0]
      simp [is_allowed, ge_iff_le, hge, hheadI]
    · simp [is_allowed, ge_iff_le, hge]
    · omega
  · have hlt := lt_of_not_le hge
    refine ⟨by simp [is_allowed, ge_iff_le, hge], fun hge2 => absurd hge2 hge,
      fun _ => ⟨?_, ?_, ?_⟩⟩
    · simp [is_allowed, ge_iff_le, hge]
    · simp [is_allowed, ge_iff_le, hge]
    · simp [is_allowed, ge_iff_le, hge]

/-- C5 witness: `max_requests = 1`, `window_seconds = 60`, one stored
timestamp at 10, admit at time 30: the pruned count is 1, so the call is
rejected with `remaining = 0` and `reset_time = 10 + 60 = 70`; from an
empty store the same admit is accepted with `remaining = 0` and
`reset_time = 90`. -/
theorem is_allowed_spec_witness :
    (is_allowed ⟨1, 60⟩ ⟨fun _ => [10]⟩ "a" 30).allowed = false
    ∧ (is_allowed ⟨1, 60⟩ ⟨fun _ => [10]⟩ "a" 30).remaining = 0
    ∧ (is_allowed ⟨1, 60⟩ ⟨fun _ => [10]⟩ "a" 30).reset_time = 70
    ∧ (is_allowed ⟨1, 60⟩ ⟨fun _ => []⟩ "a" 30).allowed = true
    ∧ (is_allowed ⟨1, 60⟩ ⟨fun _ => []⟩ "a" 30).reset_time = 90 := by
  have hfilter : (([10] : List ℚ).filter (fun t => t > (30 : ℚ) - 60)) = [10] := by
    norm_num [List.filter]
  have h := is_allowed_spec ⟨1, 60⟩ ⟨fun _ => [10]⟩ "a" 30
  rw [show (⟨fun _ => [10]⟩ : RLState).requests "a" = [10] from rfl, hfilter] at h
  have h2 := is_allowed_spec ⟨1, 60⟩ ⟨fun _ => []⟩ "a" 30
  rw [show (⟨fun _ => []⟩ : RLState).requests "a" = [] from rfl] at h2
  simp only [List.filter_nil, List.length_nil] at h2
  refine ⟨?_, ?_, ?_, ?_, ?_⟩
  · exact (h.1).2 (by norm_num)
  · exact (h.2.1 (by norm_num)).1
  · have := (h.2.1 (by norm_num)).2.1 10 rfl
    rw [this]; norm_num
  · rcases hb : (is_allowed ⟨1, 60⟩ ⟨fun _ => []⟩ "a" 30).allowed with _ | _
    · have h1 := h2.1
      rw [hb] at h1
      simp at h1
    · exact hb
  · have := (h2.2.2 (by norm_num)).2.1
    rw [this]; norm_num

/-! ## C6 -/

/-- C6: when the limiter denies, the `rate_limit` wrapper returns the 429
`RATE_LIMIT_EXCEEDED` response carrying
`retry_after = int(reset_time - now)`, the route handler is never invoked,
and the handler-side (backend / breaker) state is unchanged. -/
theorem rate_limit_denied_short_circuits {σ α : Type} (cfg : RLConfig)
    (lst : RLState) (identifier : String) (now : ℚ) (handler : σ → σ × α)
    (bs : σ)
    (hdeny : (is_allowed cfg lst identifier now).allowed = false) :
    (rate_limit cfg lst identifier now handler bs).response =
      RouteResponse.rateLimited 429
        (pyInt ((is_allowed cfg lst identifier now).reset_time - now))
    ∧ (rate_limit cfg lst identifier now handler bs).handlerCalls = 0
    ∧ (rate_limit cfg lst identifier now handler bs).backend = bs := by
  simp [rate_limit, hdeny]

/-- C6 witness: the denied admit from the C5 scenario, wrapped around a
counting handler over state 5: the response is the 429 with
`retry_after = 40`, the handler runs zero times, and the handler-side state
is still 5. -/
theorem rate_limit_denied_short_circuits_witness :
    (rate_limit ⟨1, 60⟩ ⟨fun _ => [10]⟩ "a" 30 (fun n : ℕ => (n + 1, (0 : ℕ))) 5).response
      = RouteResponse.rateLimited 429 40
    ∧ (rate_limit ⟨1, 60⟩ ⟨fun _ => [10]⟩ "a" 30 (fun n : ℕ => (n + 1, (0 : ℕ))) 5).handlerCalls = 0
    ∧ (rate_limit ⟨1, 60⟩ ⟨fun _ => [10]⟩ "a" 30 (fun n : ℕ => (n + 1, (0 : ℕ))) 5).backend = 5 := by
  have hfilter : (([10] : List ℚ).filter (fun t => t > (30 : ℚ) - 60)) = [10] := by
    norm_num [List.filter]
  have hdeny : (is_allowed ⟨1, 60⟩ ⟨fun _ => [10]⟩ "a" 30).allowed = false := by
    simp [is_allowed, hfilter]
  have h := rate_limit_denied_short_circuits ⟨1, 60⟩ ⟨fun _ => [10]⟩ "a" 30
    (fun n : ℕ => (n + 1, (0 : ℕ))) 5 hdeny
  have hreset : (is_allowed ⟨1, 60⟩ ⟨fun _ => [10]⟩ "a" 30).reset_time = 70 := by
    simp [is_allowed, hfilter]
    norm_num
  rw [hreset] at h
  have hpy : pyInt ((70 : ℚ) - 30) = 40 := by
    norm_num [pyInt]
  rw [hpy] at h
  exact h

/-! ## C7 -/

/-- A guarded call whose wrapped operation raises never yields a normal
value: the caller sees `raised`, `circuitOpen` or `typeError`. -/
lemma call_failure_not_ok {α : Type} (cfg : BreakerConfig) (s : BreakerState)
    (now now2 : ℚ) (v : α) :
    (call cfg s now (Outcome.failure : Outcome α) now2).result ≠ CallResult.ok v := by
  rcases h : callEntry cfg s now with s1 | s1 | s1 <;>
    simp [call, h, runOp]

/-- A guarded call on a breaker that is not `opened` always runs the
operation; a successful operation is returned as its value. -/
lemma call_success_ok {α : Type} (cfg : BreakerConfig) (s : BreakerState)
    (now now2 : ℚ) (v : α) (hns : s.state ≠ BState.opened) :
    (call cfg s now (Outcome.success v) now2).result = CallResult.ok v := by
  obtain ⟨fc, sc, hos, lft, st, tr, tf, lsc⟩ := s
  simp only at hns
  cases st
  · simp [call, callEntry, runOp]
  · exact absurd rfl hns
  · simp [call, callEntry, runOp]

/-- C7: the composite `get_user_details` fan-out.  (1) When the users
service answers 404 ("not found") and the users breaker lets the call
through, the 404 body is returned immediately, the orders operation is
invoked zero times and the orders breaker is untouched.  (2) When the users
service answers a success status (not 404, not an error status) and the
orders call is an infrastructure failure, the whole composite returns the
503 `serviceUnavailable` envelope — never a merged partial payload. -/
theorem get_user_details_composite {α β : Type} (ucfg ocfg : BreakerConfig)
    (us os : BreakerState) (unow unow2 onow onow2 : ℚ) (ubody : α)
    (ordersAtt : HttpAttempt β)
    (hus : us.state ≠ BState.opened) :
    ((get_user_details ucfg ocfg us os unow unow2 onow onow2
        (HttpAttempt.response 404 ubody) ordersAtt).response
        = CompositeResult.notFound ubody
      ∧ (get_user_details ucfg ocfg us os unow unow2 onow onow2
          (HttpAttempt.response 404 ubody) ordersAtt).ordersInvocations = 0
      ∧ (get_user_details ucfg ocfg us os unow unow2 onow onow2
          (HttpAttempt.response 404 ubody) ordersAtt).orders = os)
    ∧ (∀ ust : ℕ, ust ≠ 404 → ¬(400 ≤ ust ∧ ust < 600) →
        call_orders_service ordersAtt = (Outcome.failure : Outcome (β × ℕ)) →
        (get_user_details ucfg ocfg us os unow unow2 onow onow2
          (HttpAttempt.response ust ubody) ordersAtt).response
          = CompositeResult.serviceUnavailable) := by
  constructor
  · have hu : call_users_service (HttpAttempt.response 404 ubody)
        = Outcome.success (ubody, 404) := by
      simp [call_users_service]
    have hok : (call ucfg us unow
        (call_users_service (HttpAttempt.response 404 ubody)) unow2).result
        = CallResult.ok (ubody, 404) := by
      rw [hu]
      exact call_success_ok ucfg us unow unow2 (ubody, 404) hus
    simp [get_user_details, hok]
  · intro ust hne hnoterr hofail
    have hu : call_users_service (HttpAttempt.response ust ubody)
        = Outcome.success (ubody, ust) := by
      simp [call_users_service, hne, hnoterr]
    have hok : (call ucfg us unow
        (call_users_service (HttpAttempt.response ust ubody)) unow2).result
        = CallResult.ok (ubody, ust) := by
      rw [hu]
      exact call_success_ok ucfg us unow unow2 (ubody, ust) hus
    have hnotok := fun v : β × ℕ => call_failure_not_ok ocfg os onow onow2 v
    rcases hres : (call ocfg os onow (Outcome.failure : Outcome (β × ℕ)) onow2).result
      with v | _ | _ | _
    · exact absurd hres (hnotok v)
    · simp [get_user_details, hok, hne, hofail, hres]
    · simp [get_user_details, hok, hne, hofail, hres]
    · simp [get_user_details, hok, hne, hofail, hres]

/-- C7 witness: fresh breakers; a users 404 is passed through with the
orders backend never called; a users 200 followed by an orders network
failure yields the 503 envelope. -/
theorem get_user_details_composite_witness :
    ((get_user_details ⟨1/2, 10, 5, 2⟩ ⟨1/2, 10, 5, 2⟩
        (BreakerState.init 0) (BreakerState.init 0) 1 1 2 2
        (HttpAttempt.response 404 (7 : ℕ)) (HttpAttempt.requestException (α := ℕ))).response
        = CompositeResult.notFound 7
      ∧ (get_user_details ⟨1/2, 10, 5, 2⟩ ⟨1/2, 10, 5, 2⟩
          (BreakerState.init 0) (BreakerState.init 0) 1 1 2 2
          (HttpAttempt.response 404 (7 : ℕ)) (HttpAttempt.requestException (α := ℕ))).ordersInvocations = 0
      ∧ (get_user_details ⟨1/2, 10, 5, 2⟩ ⟨1/2, 10, 5, 2⟩
          (BreakerState.init 0) (BreakerState.init 0) 1 1 2 2
          (HttpAttempt.response 404 (7 : ℕ)) (HttpAttempt.requestException (α := ℕ))).orders
          = BreakerState.init 0)
    ∧ (get_user_details ⟨1/2, 10, 5, 2⟩ ⟨1/2, 10, 5, 2⟩
        (BreakerState.init 0) (BreakerState.init 0) 1 1 2 2
        (HttpAttempt.response 200 (7 : ℕ)) (HttpAttempt.requestException (α := ℕ))).response
        = CompositeResult.serviceUnavailable := by
  have h := get_user_details_composite ⟨1/2, 10, 5, 2⟩ ⟨1/2, 10, 5, 2⟩
    (BreakerState.init 0) (BreakerState.init 0) 1 1 2 2 (7 : ℕ)
    (HttpAttempt.requestException (α := ℕ))
    (by simp [BreakerState.init])
  exact ⟨h.1, h.2 200 (by norm_num) (by norm_num) rfl⟩

/-! ## C8 -/

/-- C8 counterexample: a 404 backend response is classified as a breaker
success, and a success while `half_open` with `half_open_success` one short
of `success_threshold` completes the `half_open → closed` transition, which
zeroes `failure_count`: the 404 call does NOT leave `failure_count`
unchanged (3 before, 0 after). -/
theorem notFound_can_zero_failure_count :
    (call ⟨1/2, 10, 5, 2⟩ ⟨3, 0, 1, some 0, BState.half_open, 10, 3, 0⟩ 1
        (call_users_service (HttpAttempt.response 404 (0 : ℕ))) 1).state.failure_count
      ≠ (⟨3, 0, 1, some 0, BState.half_open, 10, 3, 0⟩ : BreakerState).failure_count := by
  norm_num [call, callEntry, runOp, call_users_service]

/-- C8 (amended): a 404 backend response is never classified as a breaker
failure: the guarded call leaves `total_failures` and `last_failure_time`
unchanged, never increments `failure_count` (it can only drop to 0, and
only when the 404-as-success completes a transition to `closed`), and never
causes a transition to `opened`. -/
theorem notFound_never_breaker_failure {α : Type} (cfg : BreakerConfig)
    (s : BreakerState) (now now2 : ℚ) (body : α) :
    (call cfg s now (call_users_service (HttpAttempt.response 404 body)) now2).state.total_failures
      = s.total_failures
    ∧ (call cfg s now (call_users_service (HttpAttempt.response 404 body)) now2).state.last_failure_time
      = s.last_failure_time
    ∧ (call cfg s now (call_users_service (HttpAttempt.response 404 body)) now2).state.failure_count
      ≤ s.failure_count
    ∧ ((call cfg s now (call_users_service (HttpAttempt.response 404 body)) now2).state.failure_count
        < s.failure_count →
      (call cfg s now (call_users_service (HttpAttempt.response 404 body)) now2).state.state
        = BState.closed
      ∧ (call cfg s now (call_users_service (HttpAttempt.response 404 body)) now2).state.failure_count
        = 0)
    ∧ ((call cfg s now (call_users_service (HttpAttempt.response 404 body)) now2).state.state
        = BState.opened → s.state = BState.opened) := by
  have hu : call_users_service (HttpAttempt.response 404 body)
      = Outcome.success (body, 404) := by
    simp [call_users_service]
  rw [hu]
  obtain ⟨fc, sc, hos, lft, st, tr, tf, lsc⟩ := s
  cases st
  · simp [call, callEntry, runOp]
  · rcases lft with _ | t
    · simp [call, callEntry, runOp]
    · by_cases ht : now - t > cfg.reset_timeout
      · by_cases hk : cfg.success_threshold ≤ 1
        · simp [call, callEntry, runOp, ht, hk]
        · simp [call, callEntry, runOp, ht, hk]
      · simp [call, callEntry, runOp, ht]
  · by_cases hk : cfg.success_threshold ≤ hos + 1
    · simp [call, callEntry, runOp, hk]
    · simp [call, callEntry, runOp, hk]

/-- C8 witness: the `half_open` breaker one success short of closing, fed a
404: lifetime failures and the failure timestamp are untouched, the circuit
closes, and `failure_count` drops to 0, not to `opened`. -/
theorem notFound_never_breaker_failure_witness :
    (call ⟨1/2, 10, 5, 2⟩ ⟨3, 0, 1, some 0, BState.half_open, 10, 3, 0⟩ 1
        (call_users_service (HttpAttempt.response 404 (0 : ℕ))) 1).state.total_failures = 3
    ∧ (call ⟨1/2, 10, 5, 2⟩ ⟨3, 0, 1, some 0, BState.half_open, 10, 3, 0⟩ 1
        (call_users_service (HttpAttempt.response 404 (0 : ℕ))) 1).state.last_failure_time
      = some 0
    ∧ (call ⟨1/2, 10, 5, 2⟩ ⟨3, 0, 1, some 0, BState.half_open, 10, 3, 0⟩ 1
        (call_users_service (HttpAttempt.response 404 (0 : ℕ))) 1).state.failure_count ≤ 3
    ∧ (call ⟨1/2, 10, 5, 2⟩ ⟨3, 0, 1, some 0, BState.half_open, 10, 3, 0⟩ 1
        (call_users_service (HttpAttempt.response 404 (0 : ℕ))) 1).state.state
      ≠ BState.opened := by
  have h := notFound_never_breaker_failure ⟨1/2, 10, 5, 2⟩
    ⟨3, 0, 1, some 0, BState.half_open, 10, 3, 0⟩ 1 1 (0 : ℕ)
  refine ⟨h.1, h.2.1, h.2.2.1, ?_⟩
  intro hop
  have := h.2.2.2.2 hop
  simp at this

end Gateway
